import Mathlib

/-!
Verification of the SmartPen handwriting-scoring core against its
natural-language specification.

The definitions below are a shallow embedding of the Python sources under
`backend/app/` (algorithms/dtw.py, algorithms/resampling.py,
scoring/stroke_order.py, scoring/normalizer.py, scoring/posture_scorer.py,
api/scoring.py).  Python floats are modelled as exact real numbers (ℝ) on
the geometric pipeline (DTW / resampling / similarity, which use `exp` and
`sqrt`) and as rationals (ℚ) on the purely arithmetic components (posture
scoring, score aggregation), which keeps these decidable.  Display rounding
(`round(x, k)` on results) is modelled by `round1` / `round3` below using
round-half-up; Python's round-half-to-even differs from it only at exact
ties, which none of the statements here touches.
-/

namespace SmartPen

/-- A 2-D point, as the `(x, y)` float pairs of the Python sources. -/
abbrev Pt := ℝ × ℝ

/-- Default point used to read a list out of range (such reads never occur
on the index ranges the functions use; the source would raise instead). -/
def pt0 : Pt := (0, 0)

/-- `nth A i`: `A[i]` with a junk default out of range. -/
def nth (A : List Pt) (i : ℕ) : Pt := A.getD i pt0

/-! ## Sequence aligner (algorithms/dtw.py) -/

/-- City-block (L1) point-to-point cost, `dist_method='cityblock'`. -/
def cityblock (p q : Pt) : ℝ := |p.1 - q.1| + |p.2 - q.2|

/-- Local cost `d(i, j)` between `A[i]` and `B[j]`. -/
def dcost (A B : List Pt) (i j : ℕ) : ℝ := cityblock (nth A i) (nth B j)

/-- Global cost matrix of the `symmetric2` step pattern used by
`calculate_dtw_distance` (dtw-python): diagonal step weighted 2,
horizontal/vertical steps weighted 1, first cell seeded with `d(0,0)`. -/
def dtwG (A B : List Pt) : ℕ → ℕ → ℝ
  | 0, 0 => dcost A B 0 0
  | i + 1, 0 => dtwG A B i 0 + dcost A B (i + 1) 0
  | 0, j + 1 => dtwG A B 0 j + dcost A B 0 (j + 1)
  | i + 1, j + 1 =>
      min (min (dtwG A B i j + 2 * dcost A B (i + 1) (j + 1))
               (dtwG A B i (j + 1) + dcost A B (i + 1) (j + 1)))
          (dtwG A B (i + 1) j + dcost A B (i + 1) (j + 1))

/-- Total-path cost divided by `n + m` (the `symmetric2` normalization);
junk total value on empty inputs, used only through the guarded wrapper
`calculate_dtw_distance` or under non-emptiness hypotheses. -/
noncomputable def dtwNormalized (A B : List Pt) : ℝ :=
  dtwG A B (A.length - 1) (B.length - 1) / (A.length + B.length)

/-- `calculate_dtw_distance`: raises `ValueError` on an empty sequence
(modelled as `none`), otherwise the normalized symmetric2 DTW distance. -/
noncomputable def calculate_dtw_distance (A B : List Pt) : Option ℝ :=
  if A = [] ∨ B = [] then none else some (dtwNormalized A B)

/-- Cell `(i, j)` of the matrix built by `calculate_dtw_distance_matrix`:
the double loop writes `0.0` on the diagonal and, for `i < j`, writes
`distance(strokes[i], strokes[j])` into both `(i, j)` and `(j, i)`. -/
noncomputable def dtw_matrix_entry (strokes : List (List Pt)) (i j : ℕ) : Option ℝ :=
  if i = j then some 0
  else if i < j then calculate_dtw_distance (strokes.getD i []) (strokes.getD j [])
  else calculate_dtw_distance (strokes.getD j []) (strokes.getD i [])

/-- `compare_strokes`: similarity `exp(-distance / max_distance)` clamped to
`[0, 1]`, paired with the raw DTW distance; `none` models the `ValueError`
propagated from `calculate_dtw_distance` on empty input. -/
noncomputable def compare_strokes (template user_stroke : List Pt)
    (max_distance : ℝ := 1) : Option (ℝ × ℝ) :=
  (calculate_dtw_distance template user_stroke).map fun d =>
    (max 0 (min 1 (Real.exp (-d / max_distance))), d)

/-! ## Score normalizer (scoring/normalizer.py) -/

/-- `normalize_score`: clamp the distance to be non-negative, apply the
exponential decay `100 * exp(-distance / max_distance)`, clamp to `[0,100]`. -/
noncomputable def normalize_score (distance : ℝ) (max_distance : ℝ := 1) : ℝ :=
  max 0 (min 100 (100 * Real.exp (-(max 0 distance) / max_distance)))

/-- Python's `round(x, 1)` (round-half-to-even on floats) modelled as exact
rounding to the nearest tenth; it differs only at exact ties. -/
noncomputable def round1 (x : ℝ) : ℝ := (round (10 * x) : ℤ) / 10

/-- Python's `round(x, 3)` modelled as exact rounding to the nearest
thousandth. -/
noncomputable def round3 (x : ℝ) : ℝ := (round (1000 * x) : ℤ) / 1000

/-! ## Resampler (algorithms/resampling.py) -/

/-- Euclidean length of one polyline segment (`np.sqrt((diffs ** 2).sum)`). -/
noncomputable def segLen (p q : Pt) : ℝ :=
  Real.sqrt ((q.1 - p.1) ^ 2 + (q.2 - p.2) ^ 2)

/-- `segment_lengths`: lengths of the consecutive-point segments. -/
noncomputable def segment_lengths (stroke : List Pt) : List ℝ :=
  (stroke.zip stroke.tail).map fun pq => segLen pq.1 pq.2

/-- `cumdist = np.concatenate([[0], np.cumsum(segment_lengths)])`. -/
noncomputable def cumdist (stroke : List Pt) : List ℝ :=
  (segment_lengths stroke).scanl (· + ·) 0

/-- `total_length = cumdist[-1]`. -/
noncomputable def total_length (stroke : List Pt) : ℝ :=
  (cumdist stroke).getLastD 0

/-- `np.linspace(0, L, n)`: `n` evenly spaced values from `0` to `L`
inclusive (`[0]` for `n = 1`, `[]` for `n = 0`). -/
noncomputable def linspace (L : ℝ) (n : ℕ) : List ℝ :=
  if n = 1 then [0]
  else (List.range n).map fun (i : ℕ) => (i : ℝ) * L / ((n : ℝ) - 1)

/-- Interior part of `np.interp`: walk the `(xp, fp)` knot list and
interpolate linearly on the first segment whose right knot is `≥ x`.
Called only with `x` strictly above the first knot and strictly below the
last, where it agrees with `np.interp`. -/
noncomputable def interpSegs : List (ℝ × ℝ) → ℝ → ℝ
  | [], _ => 0
  | [(_, f0)], _ => f0
  | (x0, f0) :: (x1, f1) :: rest, x =>
      if x ≤ x1 then f0 + (x - x0) * (f1 - f0) / (x1 - x0)
      else interpSegs ((x1, f1) :: rest) x

/-- `np.interp(x, xp, fp)` for a single query point: clamp to `fp[0]` /
`fp[-1]` outside the knot range, else piecewise-linear interpolation. -/
noncomputable def npInterp (x : ℝ) (xp fp : List ℝ) : ℝ :=
  match xp, fp with
  | [], _ => 0
  | _, [] => 0
  | x0 :: _, f0 :: _ =>
      if x ≤ x0 then f0
      else if xp.getLastD 0 ≤ x then fp.getLastD 0
      else interpSegs (xp.zip fp) x

/-- `resample_stroke`: empty in, empty out; a single point is duplicated;
a stroke of total arclength under `1e-10` duplicates its first point;
otherwise interpolate x and y independently against cumulative arclength
at `target_points` evenly spaced arclength targets. -/
noncomputable def resample_stroke (stroke : List Pt) (target_points : ℕ) :
    List Pt :=
  if stroke = [] then []
  else if stroke.length = 1 then List.replicate target_points (stroke.headD pt0)
  else if total_length stroke < 1e-10 then
    List.replicate target_points (stroke.headD pt0)
  else
    (linspace (total_length stroke) target_points).map fun d =>
      (npInterp d (cumdist stroke) (stroke.map Prod.fst),
       npInterp d (cumdist stroke) (stroke.map Prod.snd))

/-! ## Stroke-order validator (scoring/stroke_order.py) -/

/-- `StrokeDirection` enum. -/
inductive StrokeDirection where
  | horizontal
  | vertical
  | diagonal_down_right
  | diagonal_down_left
  | unknown
deriving DecidableEq

/-- `StrokeOrderResult` pydantic model.  It declares exactly these five
fields; in particular it has no `error_type` field. -/
structure StrokeOrderResult where
  is_valid : Bool
  score : ℝ
  stroke_count_match : Bool
  order_penalty : ℝ
  direction_match_rate : ℝ

/-- The `max_deviation` loop of `detect_stroke_direction`: maximum
perpendicular distance of the middle points from the start–end line,
accumulated only when `dx > 0.001` and the line length exceeds `0.001`. -/
noncomputable def max_deviation (middle : List Pt) (s e : Pt) (dx : ℝ) : ℝ :=
  middle.foldl
    (fun m p =>
      if dx > 0.001 then
        let den := Real.sqrt ((e.2 - s.2) ^ 2 + (e.1 - s.1) ^ 2)
        if den > 0.001 then
          max m (|(e.2 - s.2) * p.1 - (e.1 - s.1) * p.2 + e.1 * s.2 - e.2 * s.1| / den)
        else m
      else m)
    0

/-- `detect_stroke_direction`: classify a stroke by its endpoint
displacement ratios (dominance threshold 0.7), reclassifying
strongly-curved strokes (deviation over 20% of the displacement) and very
small strokes as `unknown`. -/
noncomputable def detect_stroke_direction (stroke : List Pt)
    (direction_threshold : ℝ := 0.7) : StrokeDirection :=
  if stroke.length < 2 then .unknown
  else
    let s := stroke.headD pt0
    let e := stroke.getLastD pt0
    let dx := |e.1 - s.1|
    let dy := |e.2 - s.2|
    let tot := dx + dy
    if tot < 0.1 then .unknown
    else if stroke.length > 2 ∧ tot > 0 ∧
        max_deviation ((stroke.drop 1).dropLast) s e dx / tot > 0.2 then .unknown
    else if dx / tot ≥ direction_threshold then .horizontal
    else if dy / tot ≥ direction_threshold then .vertical
    else if dx / tot > 0.3 ∧ dy / tot > 0.3 then
      if (s.1 < e.1 ∧ s.2 < e.2) ∨ (e.1 < s.1 ∧ e.2 < s.2) then
        .diagonal_down_right
      else .diagonal_down_left
    else .unknown

/-- Similarity component computed by `compare_strokes` at the default
`max_distance = 1.0`, as used for every cell of
`calculate_similarity_matrix`. -/
noncomputable def strokeSimilarity (t u : List Pt) : ℝ :=
  max 0 (min 1 (Real.exp (-dtwNormalized t u)))

/-- Cell `(i, j)` of `calculate_similarity_matrix`: similarity between
template stroke `i` and user stroke `j`. -/
noncomputable def similarity_matrix (ts us : List (List Pt)) (i j : ℕ) : ℝ :=
  strokeSimilarity (ts.getD i []) (us.getD j [])

/-- `np.argmax` over `f 0, …, f (n-1)`: first index of the maximum,
as the left-to-right scan that replaces only on strict improvement. -/
noncomputable def npArgmax (f : ℕ → ℝ) (n : ℕ) : ℕ :=
  (List.range n).foldl (fun best j => if f best < f j then j else best) 0

/-- `validate_stroke_order`: gate on empty input and stroke-count
mismatch, then derive a composite verdict from the similarity matrix,
argmax-based order penalty, diagonal mean (halved below 0.6), and
direction match rate. -/
noncomputable def validate_stroke_order (template_strokes user_strokes : List (List Pt))
    (order_penalty_factor : ℝ := 0.3) : StrokeOrderResult :=
  if user_strokes = [] then
    { is_valid := false, score := 0, stroke_count_match := false
      order_penalty := 1, direction_match_rate := 0 }
  else if user_strokes.length ≠ template_strokes.length then
    { is_valid := false, score := 0.3, stroke_count_match := false
      order_penalty := 0.5, direction_match_rate := 0 }
  else
    let n := template_strokes.length
    let sim := similarity_matrix template_strokes user_strokes
    let order_penalty := (List.range n).foldl
      (fun acc i => if npArgmax (sim i) n ≠ i then acc + order_penalty_factor / n else acc) 0
    let avg0 := ((List.range n).map fun i => sim i i).sum / n
    let avg := if avg0 < 0.6 then avg0 * 0.5 else avg0
    let dirMatches := (List.range n).foldl
      (fun acc i =>
        if detect_stroke_direction (template_strokes.getD i []) =
             detect_stroke_direction (user_strokes.getD i []) ∧
           detect_stroke_direction (template_strokes.getD i []) ≠ .unknown
        then acc + 1 else acc) (0 : ℕ)
    let dmr : ℝ := if 0 < n then (dirMatches : ℝ) / n else 0
    let score0 := avg * (1 - order_penalty)
    let score := if dmr > 0.5 then min 1 (score0 + 0.1 * dmr) else score0
    { is_valid := decide (score ≥ 0.7 ∧ order_penalty < 0.3), score := score
      stroke_count_match := true, order_penalty := order_penalty
      direction_match_rate := dmr }

/-! ## Posture evaluator (scoring/posture_scorer.py, models/posture.py)

The posture component uses only field arithmetic and comparisons, so it is
modelled over ℚ and stays fully executable.  The f-string issue messages
interpolate the offending metric into the text; the interpolated number is
elided here (the `_generate_feedback` substring tests `"脊柱" in i` etc.
depend only on the constant part of each message). -/

/-- `PostureData`: the three required metrics. -/
structure PostureData where
  spine_angle : ℚ
  eye_screen_distance : ℚ
  head_tilt : ℚ
deriving DecidableEq, Repr

/-- `PostureLevel` enum. -/
inductive PostureLevel where
  | good
  | warning
  | critical
deriving DecidableEq, Repr

/-- `PostureAnalysis` pydantic model. -/
structure PostureAnalysis where
  is_correct : Bool
  score : ℚ
  level : PostureLevel
  issues : List String
  feedback : String
  spine_angle : ℚ
  eye_screen_distance : ℚ
  head_tilt : ℚ
deriving DecidableEq, Repr

def SPINE_ANGLE_WARNING : ℚ := 10
def SPINE_ANGLE_CRITICAL : ℚ := 20
def EYE_DISTANCE_WARNING : ℚ := 35
def EYE_DISTANCE_CRITICAL : ℚ := 25
def HEAD_TILT_WARNING : ℚ := 15
def HEAD_TILT_CRITICAL : ℚ := 30
def SPINE_PENALTY_MAX : ℚ := 30
def EYE_DISTANCE_PENALTY_MAX : ℚ := 40
def HEAD_TILT_PENALTY_MAX : ℚ := 30

/-- `_evaluate_spine_angle` of the default `PostureScorer`. -/
def evaluate_spine_angle (angle : ℚ) : ℚ :=
  if angle < SPINE_ANGLE_WARNING then 0
  else if angle < SPINE_ANGLE_CRITICAL then
    (angle - SPINE_ANGLE_WARNING) / (SPINE_ANGLE_CRITICAL - SPINE_ANGLE_WARNING) *
      (SPINE_PENALTY_MAX * 0.5)
  else SPINE_PENALTY_MAX

/-- `_evaluate_eye_distance` of the default `PostureScorer`. -/
def evaluate_eye_distance (distance : ℚ) : ℚ :=
  if EYE_DISTANCE_WARNING ≤ distance then 0
  else if EYE_DISTANCE_CRITICAL < distance then
    (EYE_DISTANCE_WARNING - distance) / (EYE_DISTANCE_WARNING - EYE_DISTANCE_CRITICAL) *
      (EYE_DISTANCE_PENALTY_MAX * 0.5)
  else EYE_DISTANCE_PENALTY_MAX

/-- `_evaluate_head_tilt` of the default `PostureScorer`. -/
def evaluate_head_tilt (tilt : ℚ) : ℚ :=
  if tilt < HEAD_TILT_WARNING then 0
  else if tilt < HEAD_TILT_CRITICAL then
    (tilt - HEAD_TILT_WARNING) / (HEAD_TILT_CRITICAL - HEAD_TILT_WARNING) *
      (HEAD_TILT_PENALTY_MAX * 0.5)
  else HEAD_TILT_PENALTY_MAX

/-- `_determine_level`: CRITICAL when any critical threshold is reached,
else WARNING when any warning threshold is reached, else GOOD. -/
def determine_level (spine_angle eye_distance head_tilt : ℚ) : PostureLevel :=
  let critical_count : ℕ :=
    (if SPINE_ANGLE_CRITICAL ≤ spine_angle then 1 else 0) +
    (if eye_distance ≤ EYE_DISTANCE_CRITICAL then 1 else 0) +
    (if HEAD_TILT_CRITICAL ≤ head_tilt then 1 else 0)
  if 0 < critical_count then .critical
  else
    let warning_count : ℕ :=
      (if SPINE_ANGLE_WARNING ≤ spine_angle then 1 else 0) +
      (if eye_distance ≤ EYE_DISTANCE_WARNING then 1 else 0) +
      (if HEAD_TILT_WARNING ≤ head_tilt then 1 else 0)
    if 0 < warning_count then .warning
    else .good

def spineIssueMsg : String := "脊柱弯曲严重"
def eyeIssueMsg : String := "距离屏幕太近"
def headIssueMsg : String := "头部倾斜严重"

/-- `_generate_feedback`: praise when no issues, otherwise feedback parts
selected by which metric categories appear among the issues. -/
def generate_feedback (issues : List String) (score : ℚ) : String :=
  if issues = [] then
    if 95 ≤ score then "坐姿标准，继续保持！"
    else "坐姿良好，稍微调整一下会更完美。"
  else
    let parts :=
      (if spineIssueMsg ∈ issues then ["请坐直身体，保持脊柱挺直"] else []) ++
      (if eyeIssueMsg ∈ issues then ["请远离屏幕，保持适当距离"] else []) ++
      (if headIssueMsg ∈ issues then ["请摆正头部，保持平视"] else [])
    if parts ≠ [] then String.intercalate "，" parts ++ "。"
    else "请调整坐姿后再继续书写。"

/-- `PostureScorer.score` of the default scorer (`score_posture`): start at
100, subtract the three penalties, clamp to `[0, 100]`; an issue is recorded
only for a metric whose penalty is positive and which reaches its critical
threshold. -/
def score_posture (posture_data : PostureData) : PostureAnalysis :=
  let spine_penalty := evaluate_spine_angle posture_data.spine_angle
  let eye_penalty := evaluate_eye_distance posture_data.eye_screen_distance
  let head_penalty := evaluate_head_tilt posture_data.head_tilt
  let issues :=
    (if 0 < spine_penalty ∧ SPINE_ANGLE_CRITICAL ≤ posture_data.spine_angle
     then [spineIssueMsg] else []) ++
    (if 0 < eye_penalty ∧ posture_data.eye_screen_distance ≤ EYE_DISTANCE_CRITICAL
     then [eyeIssueMsg] else []) ++
    (if 0 < head_penalty ∧ HEAD_TILT_CRITICAL ≤ posture_data.head_tilt
     then [headIssueMsg] else [])
  let score := max 0 (min 100 (100 - spine_penalty - eye_penalty - head_penalty))
  let level := determine_level posture_data.spine_angle
    posture_data.eye_screen_distance posture_data.head_tilt
  { is_correct := level = .good
    score := score
    level := level
    issues := issues
    feedback := generate_feedback issues score
    spine_angle := posture_data.spine_angle
    eye_screen_distance := posture_data.eye_screen_distance
    head_tilt := posture_data.head_tilt }

/-! ## Character-score aggregation (scoring/normalizer.py) -/

/-- `ScoreBreakdown` pydantic model. -/
structure ScoreBreakdown where
  total_score : ℚ
  stroke_count : ℕ
  expected_count : Option ℕ
  average_score : ℚ
  min_score : ℚ
  max_score : ℚ
  perfect_strokes : ℕ
deriving DecidableEq, Repr

/-- `calculate_character_score`: mean of the per-stroke scores scaled to
`[0, 100]`, with a count-mismatch penalty and a final clamp. -/
def calculate_character_score (stroke_scores : List ℚ)
    (expected_stroke_count : Option ℕ := none) : ScoreBreakdown :=
  if stroke_scores = [] then
    { total_score := 0, stroke_count := 0, expected_count := expected_stroke_count
      average_score := 0, min_score := 0, max_score := 0, perfect_strokes := 0 }
  else
    let stroke_count := stroke_scores.length
    let average_score := stroke_scores.sum / stroke_count
    let total0 := average_score * 100
    let total :=
      match expected_stroke_count with
      | some e =>
          if stroke_count ≠ e then
            let r := (stroke_count : ℚ) / e
            let penalty := if r < 1 then (1 - r) * 50 else (r - 1) * 25
            max 0 (total0 - penalty)
          else total0
      | none => total0
    { total_score := max 0 (min 100 total)
      stroke_count := stroke_count
      expected_count := expected_stroke_count
      average_score := average_score
      min_score := (stroke_scores.min?).getD 0
      max_score := (stroke_scores.max?).getD 0
      perfect_strokes := stroke_scores.countP fun s => (0.95 : ℚ) ≤ s }

/-! ## Comprehensive scorer (api/scoring.py)

The endpoint depends on one external collaborator, the reference-template
loader; its result (`reference_data.medians`, already converted to point
lists) is passed in as the `reference_medians` argument.  `HTTPException`s
raised by the endpoint are modelled as `Except.error`. -/

def HANDWRITING_WEIGHT : ℝ := 0.7
def POSTURE_WEIGHT : ℝ := 0.3

/-- Errors the endpoint can surface: a 4xx input validation failure or the
blanket 500 handler. -/
inductive ApiError where
  | badRequest (detail : String)
  | internalError (detail : String)
deriving DecidableEq

/-- `_get_grade`: fixed grade bands. -/
noncomputable def get_grade (score : ℝ) : String :=
  if 90 ≤ score then "优秀"
  else if 80 ≤ score then "良好"
  else if 60 ≤ score then "及格"
  else "需练习"

/-- `StrokeAnalysis` pydantic model. -/
structure StrokeAnalysis where
  stroke_index : ℕ
  similarity : ℝ
  score : ℝ
  issues : List String

/-- `ComprehensiveScoreResult` pydantic model.  It declares exactly these
fields — in particular no `error_type` / `message` fields. -/
structure ComprehensiveScoreResult where
  total_score : ℝ
  handwriting_score : ℝ
  posture_score : ℝ
  grade : String
  stroke_analysis : List StrokeAnalysis
  posture_analysis : Option PostureAnalysis
  feedback : String

/-- The f-string `f"第 {i+1} 笔与标准差异较大"`. -/
def strokeIssueMsg (i : ℕ) : String :=
  "第 " ++ toString (i + 1) ++ " 笔与标准差异较大"

/-- One iteration of the `_score_handwriting` loop: returns the stroke's
analysis and the value appended to `stroke_scores`.  The per-stroke
`try/except` around `calculate_dtw_distance` corresponds to the `none`
case; an index beyond the reference medians is the extra-stroke branch. -/
noncomputable def score_one_stroke (i : ℕ) (user_stroke : List Pt)
    (reference_medians : List (List Pt)) : StrokeAnalysis × ℝ :=
  if i < reference_medians.length then
    match calculate_dtw_distance user_stroke (reference_medians.getD i []) with
    | some distance =>
        let similarity := normalize_score distance 0.5 / 100
        let stroke_score := similarity * 100
        (⟨i, round3 similarity, round1 stroke_score,
          if stroke_score < 60 then [strokeIssueMsg i] else []⟩, similarity)
    | none => (⟨i, 0, 0, ["评分失败"]⟩, 0)
  else (⟨i, 0, 0, ["多余的笔画"]⟩, 0)

/-- `_score_handwriting`: per-stroke analyses plus the rounded mean stroke
similarity scaled to `[0, 100]`. -/
noncomputable def score_handwriting (user_strokes : List (List Pt))
    (reference_medians : List (List Pt)) : ℝ × List StrokeAnalysis :=
  let results := user_strokes.enum.map fun iu =>
    score_one_stroke iu.1 iu.2 reference_medians
  let stroke_scores := results.map Prod.snd
  let handwriting_score :=
    if stroke_scores = [] then 0
    else stroke_scores.sum / stroke_scores.length * 100
  (round1 handwriting_score, results.map Prod.fst)

/-- `_generate_comprehensive_feedback`. -/
noncomputable def generate_comprehensive_feedback (handwriting_score posture_score : ℝ)
    (posture_analysis : Option PostureAnalysis) : String :=
  let hw :=
    if 90 ≤ handwriting_score then "字写得很好"
    else if 70 ≤ handwriting_score then "字写得不错"
    else if 60 ≤ handwriting_score then "字写得一般"
    else "字需要多练习"
  let post :=
    match posture_analysis with
    | none => ""
    | some pa =>
        if pa.is_correct then
          if 90 ≤ posture_score then "坐姿也很标准" else "坐姿良好"
        else "但" ++ (pa.feedback.replace "。" "")
  hw ++ post ++ "！"

/-- Steps 4–7 of `comprehensive_score` (inlined in the source): default the
posture score to 100 when no sample was supplied, weight handwriting 0.7 /
posture 0.3, grade the total, and build the response. -/
noncomputable def comprehensive_combine (handwriting_score : ℝ)
    (posture_data : Option PostureData)
    (stroke_analyses : List StrokeAnalysis) : ComprehensiveScoreResult :=
  let posture_analysis := posture_data.map score_posture
  let posture_score : ℝ :=
    match posture_analysis with
    | some pa => (pa.score : ℝ)
    | none => 100
  let total_score := handwriting_score * HANDWRITING_WEIGHT +
    posture_score * POSTURE_WEIGHT
  { total_score := round1 total_score
    handwriting_score := round1 handwriting_score
    posture_score := round1 posture_score
    grade := get_grade total_score
    stroke_analysis := stroke_analyses
    posture_analysis := posture_analysis
    feedback := generate_comprehensive_feedback handwriting_score posture_score
      posture_analysis }

/-- The `/score/comprehensive` endpoint body.  On an invalid or
count-mismatched order verdict the source evaluates
`order_result.error_type`, a field `StrokeOrderResult` does not declare;
pydantic raises `AttributeError`, which the blanket `except Exception`
handler turns into an HTTP 500 — so this branch is an error, not the
zero-score response the `return` statement under it was meant to build. -/
noncomputable def comprehensive_score (character : String)
    (user_strokes : List (List Pt)) (posture_data : Option PostureData)
    (reference_medians : List (List Pt)) :
    Except ApiError ComprehensiveScoreResult :=
  if character.length ≠ 1 then .error (.badRequest "请提供单个汉字")
  else if user_strokes = [] then .error (.badRequest "请提供书写笔画数据")
  else
    let order_result := validate_stroke_order reference_medians user_strokes
    if ¬order_result.is_valid ∨ ¬order_result.stroke_count_match then
      .error (.internalError "AttributeError: 'StrokeOrderResult' object has no attribute 'error_type'")
    else
      let hw := score_handwriting user_strokes reference_medians
      .ok (comprehensive_combine hw.1 posture_data hw.2)

/-! ## Spec-side definitions

Definitions in this section follow the specification's words rather than
the source's control flow; the refinement theorems below compare them with
the source-derived definitions above. -/

/-- Spec side (§4.4): "for each template index i, find the best-matching
user index" — the least user index attaining the row maximum. -/
noncomputable def bestMatch (f : ℕ → ℝ) (n : ℕ) : ℕ :=
  sInf {j | j < n ∧ ∀ k < n, f k ≤ f j}

/-- Spec side (§4.4): the order verdict described by the specification for
matching stroke counts: order penalty as a sum of `0.3 / N` over misplaced
best matches, diagonal-mean similarity halved below 0.6, direction match
rate as a fraction of matching indices, score
`avg · (1 − penalty)` boosted by `0.1 · dmr` and capped at 1 when
`dmr > 0.5`, and validity iff `score ≥ 0.7` and `penalty < 0.3`. -/
noncomputable def spec_order_verdict (ts us : List (List Pt)) : StrokeOrderResult :=
  let n := ts.length
  let sim := similarity_matrix ts us
  let order_penalty : ℝ :=
    ∑ i in Finset.range n, if bestMatch (sim i) n ≠ i then (0.3 : ℝ) / n else 0
  let avg0 := (∑ i in Finset.range n, sim i i) / n
  let avg := if avg0 < 0.6 then avg0 * 0.5 else avg0
  let dmr : ℝ :=
    (((Finset.range n).filter fun i =>
        detect_stroke_direction (ts.getD i []) =
          detect_stroke_direction (us.getD i []) ∧
        detect_stroke_direction (ts.getD i []) ≠ .unknown).card : ℝ) / n
  let score0 := avg * (1 - order_penalty)
  let score := if dmr > 0.5 then min 1 (score0 + 0.1 * dmr) else score0
  { is_valid := decide (score ≥ 0.7 ∧ order_penalty < 0.3), score := score
    stroke_count_match := true, order_penalty := order_penalty
    direction_match_rate := dmr }

/-- Spec side (§4.5): spine penalty — 0 on the good side of the warning
threshold, a linear ramp from 0 to half the maximum strictly between
warning and critical, the full maximum at/beyond critical. -/
def specSpinePenalty (angle : ℚ) : ℚ :=
  if angle ≤ SPINE_ANGLE_WARNING then 0
  else if angle < SPINE_ANGLE_CRITICAL then
    (angle - SPINE_ANGLE_WARNING) / (SPINE_ANGLE_CRITICAL - SPINE_ANGLE_WARNING) *
      (SPINE_PENALTY_MAX / 2)
  else SPINE_PENALTY_MAX

/-- Spec side (§4.5): eye-distance penalty (good side is a large distance). -/
def specEyePenalty (distance : ℚ) : ℚ :=
  if EYE_DISTANCE_WARNING ≤ distance then 0
  else if EYE_DISTANCE_CRITICAL < distance then
    (EYE_DISTANCE_WARNING - distance) / (EYE_DISTANCE_WARNING - EYE_DISTANCE_CRITICAL) *
      (EYE_DISTANCE_PENALTY_MAX / 2)
  else EYE_DISTANCE_PENALTY_MAX

/-- Spec side (§4.5): head-tilt penalty. -/
def specHeadPenalty (tilt : ℚ) : ℚ :=
  if tilt ≤ HEAD_TILT_WARNING then 0
  else if tilt < HEAD_TILT_CRITICAL then
    (tilt - HEAD_TILT_WARNING) / (HEAD_TILT_CRITICAL - HEAD_TILT_WARNING) *
      (HEAD_TILT_PENALTY_MAX / 2)
  else HEAD_TILT_PENALTY_MAX

/-- Spec side (§4.5): CRITICAL if any metric is at/beyond its critical
threshold, else WARNING if any is at/beyond its warning threshold, else
GOOD. -/
def specPostureLevel (spine_angle eye_distance head_tilt : ℚ) : PostureLevel :=
  if SPINE_ANGLE_CRITICAL ≤ spine_angle ∨ eye_distance ≤ EYE_DISTANCE_CRITICAL ∨
     HEAD_TILT_CRITICAL ≤ head_tilt then .critical
  else if SPINE_ANGLE_WARNING ≤ spine_angle ∨ eye_distance ≤ EYE_DISTANCE_WARNING ∨
     HEAD_TILT_WARNING ≤ head_tilt then .warning
  else .good

/-- The per-stroke similarity the C2 claim describes: resample both strokes
to a common point count first, then take the DTW distance and normalize it
by the exponential decay used in `_score_handwriting`. -/
noncomputable def resampleFirstSimilarity (n : ℕ) (u t : List Pt) : ℝ :=
  normalize_score
    ((calculate_dtw_distance (resample_stroke u n) (resample_stroke t n)).getD 0)
    0.5 / 100

/-- Spec side (§4.6/§6): the posture score used in the weighted total —
the evaluated score when a sample is supplied, 100 otherwise. -/
def specPostureScore : Option PostureData → ℚ
  | some pd => (score_posture pd).score
  | none => 100

/-! ## Supporting lemmas -/

lemma cityblock_nonneg (p q : Pt) : 0 ≤ cityblock p q := by
  unfold cityblock; positivity

lemma cityblock_self (p : Pt) : cityblock p p = 0 := by
  simp [cityblock]

lemma cityblock_comm (p q : Pt) : cityblock p q = cityblock q p := by
  simp [cityblock, abs_sub_comm]

lemma dcost_nonneg (A B : List Pt) (i j : ℕ) : 0 ≤ dcost A B i j :=
  cityblock_nonneg _ _

lemma dtwG_nonneg (A B : List Pt) : ∀ i j, 0 ≤ dtwG A B i j := by
  intro i j
  induction i, j using dtwG.induct A B with
  | case1 => rw [dtwG]; exact dcost_nonneg A B 0 0
  | case2 i ih => rw [dtwG]; exact add_nonneg ih (dcost_nonneg A B _ _)
  | case3 j ih => rw [dtwG]; exact add_nonneg ih (dcost_nonneg A B _ _)
  | case4 i j ih₁ ih₂ ih₃ =>
      rw [dtwG]
      refine le_min (le_min ?_ ?_) ?_
      · have := dcost_nonneg A B (i + 1) (j + 1); nlinarith
      · exact add_nonneg ih₂ (dcost_nonneg A B _ _)
      · exact add_nonneg ih₃ (dcost_nonneg A B _ _)

lemma dtwG_self_diag (S : List Pt) : ∀ i, dtwG S S i i = 0 := by
  intro i
  induction i with
  | zero => rw [dtwG, dcost, cityblock_self]
  | succ i ih =>
      rw [dtwG, dcost, cityblock_self, ih]
      have h₁ := dtwG_nonneg S S i (i + 1)
      have h₂ := dtwG_nonneg S S (i + 1) i
      simp only [add_zero, mul_zero, zero_add]
      rw [min_eq_left h₁, min_eq_left h₂]

lemma dtwG_symm (A B : List Pt) : ∀ i j, dtwG A B i j = dtwG B A j i := by
  intro i j
  induction i, j using dtwG.induct A B with
  | case1 =>
      have hr : dtwG B A 0 0 = dcost B A 0 0 := by rw [dtwG]
      rw [dtwG, hr]
      simp [dcost, cityblock_comm]
  | case2 i ih =>
      have hr : dtwG B A 0 (i + 1) = dtwG B A 0 i + dcost B A 0 (i + 1) := by rw [dtwG]
      rw [dtwG, hr, ih]
      congr 1
      simp [dcost, cityblock_comm]
  | case3 j ih =>
      have hr : dtwG B A (j + 1) 0 = dtwG B A j 0 + dcost B A (j + 1) 0 := by rw [dtwG]
      rw [hr, dtwG, ih]
      congr 1
      simp [dcost, cityblock_comm]
  | case4 i j ih₁ ih₂ ih₃ =>
      have hr : dtwG B A (j + 1) (i + 1) =
          min (min (dtwG B A j i + 2 * dcost B A (j + 1) (i + 1))
                   (dtwG B A j (i + 1) + dcost B A (j + 1) (i + 1)))
              (dtwG B A (j + 1) i + dcost B A (j + 1) (i + 1)) := by rw [dtwG]
      rw [dtwG, hr, ih₁, ih₂, ih₃]
      have hc : dcost A B (i + 1) (j + 1) = dcost B A (j + 1) (i + 1) := by
        simp [dcost, cityblock_comm]
      rw [hc, min_assoc, min_comm (dtwG B A (j + 1) i + _), ← min_assoc]

lemma dtwNormalized_self (S : List Pt) : dtwNormalized S S = 0 := by
  rw [dtwNormalized, dtwG_self_diag, zero_div]

lemma dtwNormalized_comm (A B : List Pt) : dtwNormalized A B = dtwNormalized B A := by
  rw [dtwNormalized, dtwNormalized, dtwG_symm, add_comm]

lemma calculate_dtw_distance_comm (A B : List Pt) :
    calculate_dtw_distance A B = calculate_dtw_distance B A := by
  unfold calculate_dtw_distance
  rw [dtwNormalized_comm]
  exact if_congr or_comm rfl rfl

lemma compare_strokes_eq (t u : List Pt) (ht : t ≠ []) (hu : u ≠ []) :
    compare_strokes t u = some (strokeSimilarity t u, dtwNormalized t u) := by
  simp [compare_strokes, calculate_dtw_distance, ht, hu, strokeSimilarity]

lemma validate_stroke_order_empty (ts : List (List Pt)) :
    validate_stroke_order ts [] =
      { is_valid := false, score := 0, stroke_count_match := false
        order_penalty := 1, direction_match_rate := 0 } := by
  simp [validate_stroke_order]

lemma validate_stroke_order_mismatch (ts us : List (List Pt)) (h1 : us ≠ [])
    (h2 : us.length ≠ ts.length) :
    validate_stroke_order ts us =
      { is_valid := false, score := 0.3, stroke_count_match := false
        order_penalty := 0.5, direction_match_rate := 0 } := by
  simp [validate_stroke_order, h1, h2]

lemma evaluate_spine_angle_eq_spec (a : ℚ) :
    evaluate_spine_angle a = specSpinePenalty a := by
  unfold evaluate_spine_angle specSpinePenalty
  unfold SPINE_ANGLE_WARNING SPINE_ANGLE_CRITICAL SPINE_PENALTY_MAX
  split_ifs <;> first
    | rfl
    | linarith
    | (have : a = 10 := by linarith
       subst this
       norm_num)
    | norm_num

lemma evaluate_eye_distance_eq_spec (d : ℚ) :
    evaluate_eye_distance d = specEyePenalty d := by
  unfold evaluate_eye_distance specEyePenalty
  unfold EYE_DISTANCE_WARNING EYE_DISTANCE_CRITICAL EYE_DISTANCE_PENALTY_MAX
  split_ifs <;> first
    | rfl
    | linarith
    | norm_num

lemma evaluate_head_tilt_eq_spec (t : ℚ) :
    evaluate_head_tilt t = specHeadPenalty t := by
  unfold evaluate_head_tilt specHeadPenalty
  unfold HEAD_TILT_WARNING HEAD_TILT_CRITICAL HEAD_TILT_PENALTY_MAX
  split_ifs <;> first
    | rfl
    | linarith
    | (have : t = 15 := by linarith
       subst this
       norm_num)
    | norm_num

lemma pos3_iff (c1 c2 c3 : Prop) [Decidable c1] [Decidable c2] [Decidable c3] :
    0 < ((if c1 then (1 : ℕ) else 0) + (if c2 then 1 else 0) +
      (if c3 then 1 else 0)) ↔ c1 ∨ c2 ∨ c3 := by
  split_ifs <;> simp_all

lemma determine_level_eq_spec (a e t : ℚ) :
    determine_level a e t = specPostureLevel a e t := by
  simp only [determine_level, specPostureLevel]
  by_cases h1 : SPINE_ANGLE_CRITICAL ≤ a ∨ e ≤ EYE_DISTANCE_CRITICAL ∨
      HEAD_TILT_CRITICAL ≤ t
  · rw [if_pos ((pos3_iff _ _ _).mpr h1), if_pos h1]
  · rw [if_neg (fun hc => h1 ((pos3_iff _ _ _).mp hc)), if_neg h1]
    by_cases h2 : SPINE_ANGLE_WARNING ≤ a ∨ e ≤ EYE_DISTANCE_WARNING ∨
        HEAD_TILT_WARNING ≤ t
    · rw [if_pos ((pos3_iff _ _ _).mpr h2), if_pos h2]
    · rw [if_neg (fun hw => h2 ((pos3_iff _ _ _).mp hw)), if_neg h2]

lemma evaluate_spine_angle_nonneg (a : ℚ) : 0 ≤ evaluate_spine_angle a := by
  unfold evaluate_spine_angle SPINE_ANGLE_WARNING SPINE_ANGLE_CRITICAL SPINE_PENALTY_MAX
  split_ifs <;> first | rfl | positivity | nlinarith

lemma evaluate_eye_distance_nonneg (d : ℚ) : 0 ≤ evaluate_eye_distance d := by
  unfold evaluate_eye_distance EYE_DISTANCE_WARNING EYE_DISTANCE_CRITICAL
    EYE_DISTANCE_PENALTY_MAX
  split_ifs <;> first | rfl | positivity | nlinarith

lemma evaluate_head_tilt_nonneg (t : ℚ) : 0 ≤ evaluate_head_tilt t := by
  unfold evaluate_head_tilt HEAD_TILT_WARNING HEAD_TILT_CRITICAL HEAD_TILT_PENALTY_MAX
  split_ifs <;> first | rfl | positivity | nlinarith

lemma clamp_max0 (x : ℚ) : max 0 (min 100 (max 0 x)) = max 0 (min 100 x) := by
  simp only [max_def, min_def]
  split_ifs <;> first | rfl | linarith

lemma round1_int (n : ℤ) : round1 ((n : ℤ) : ℝ) = (n : ℝ) := by
  unfold round1
  rw [show (10 : ℝ) * ((n : ℤ) : ℝ) = ((10 * n : ℤ) : ℝ) by push_cast; ring,
    round_intCast]
  push_cast
  ring

lemma foldl_cond_add (p : ℕ → Prop) [DecidablePred p] (w : ℝ) :
    ∀ (n : ℕ) (c : ℝ),
      (List.range n).foldl (fun acc i => if p i then acc + w else acc) c =
        c + ∑ i in Finset.range n, if p i then w else 0 := by
  intro n
  induction n with
  | zero => intro c; simp
  | succ n ih =>
      intro c
      rw [List.range_succ, List.foldl_append, ih, Finset.sum_range_succ]
      by_cases hp : p n
      · simp only [List.foldl_cons, List.foldl_nil, if_pos hp]
        ring
      · simp only [List.foldl_cons, List.foldl_nil, if_neg hp]
        ring

lemma foldl_cond_count (p : ℕ → Prop) [DecidablePred p] :
    ∀ (n : ℕ) (c : ℕ),
      (List.range n).foldl (fun acc i => if p i then acc + 1 else acc) c =
        c + ((Finset.range n).filter p).card := by
  intro n
  induction n with
  | zero => intro c; simp
  | succ n ih =>
      intro c
      rw [List.range_succ, List.foldl_append, ih, Finset.range_succ,
        Finset.filter_insert]
      by_cases hp : p n
      · rw [if_pos hp, Finset.card_insert_of_not_mem fun hmem =>
          absurd (Finset.mem_filter.mp hmem).1 (by simp)]
        simp only [List.foldl_cons, List.foldl_nil, if_pos hp]
        omega
      · rw [if_neg hp]
        simp only [List.foldl_cons, List.foldl_nil, if_neg hp]

lemma map_range_sum (g : ℕ → ℝ) (n : ℕ) :
    ((List.range n).map g).sum = ∑ i in Finset.range n, g i := by
  induction n with
  | zero => simp
  | succ n ih =>
      rw [List.range_succ, List.map_append, List.sum_append,
        Finset.sum_range_succ, ih]
      simp

lemma npArgmax_zero (f : ℕ → ℝ) : npArgmax f 0 = 0 := rfl

lemma npArgmax_succ (f : ℕ → ℝ) (n : ℕ) :
    npArgmax f (n + 1) =
      if f (npArgmax f n) < f n then n else npArgmax f n := by
  unfold npArgmax
  rw [List.range_succ, List.foldl_append]
  simp

lemma npArgmax_lt (f : ℕ → ℝ) : ∀ n, 0 < n → npArgmax f n < n := by
  intro n hn
  induction n with
  | zero => omega
  | succ n ih =>
      rw [npArgmax_succ]
      split_ifs
      · omega
      · rcases Nat.eq_zero_or_pos n with rfl | hp
        · rw [npArgmax_zero]; omega
        · exact (ih hp).trans (Nat.lt_succ_self n)

lemma npArgmax_le_max (f : ℕ → ℝ) : ∀ n, ∀ k, k < n → f k ≤ f (npArgmax f n) := by
  intro n
  induction n with
  | zero => omega
  | succ n ih =>
      intro k hk
      rw [npArgmax_succ]
      split_ifs with h
      · rcases Nat.lt_succ_iff_lt_or_eq.mp hk with hk' | rfl
        · exact (ih k hk').trans h.le
        · exact le_refl _
      · rcases Nat.lt_succ_iff_lt_or_eq.mp hk with hk' | rfl
        · exact ih k hk'
        · exact not_lt.mp h

lemma npArgmax_first (f : ℕ → ℝ) :
    ∀ n, ∀ k, k < npArgmax f n → f k < f (npArgmax f n) := by
  intro n
  induction n with
  | zero => rw [npArgmax_zero]; omega
  | succ n ih =>
      intro k hk
      rw [npArgmax_succ] at hk ⊢
      split_ifs with h
      · rw [if_pos h] at hk
        exact lt_of_le_of_lt (npArgmax_le_max f n k hk) h
      · rw [if_neg h] at hk
        exact ih k hk

lemma npArgmax_eq_bestMatch (f : ℕ → ℝ) (n : ℕ) (hn : 0 < n) :
    npArgmax f n = bestMatch f n := by
  have hmem : npArgmax f n ∈ {j | j < n ∧ ∀ k < n, f k ≤ f j} :=
    ⟨npArgmax_lt f n hn, fun k hk => npArgmax_le_max f n k hk⟩
  have hleast : ∀ m ∈ {j | j < n ∧ ∀ k < n, f k ≤ f j}, npArgmax f n ≤ m := by
    intro m hm
    by_contra hlt
    push_neg at hlt
    have h1 : f m < f (npArgmax f n) := npArgmax_first f n m hlt
    have h2 : f (npArgmax f n) ≤ f m := hm.2 _ (npArgmax_lt f n hn)
    linarith
  exact le_antisymm (hleast _ (Nat.sInf_mem ⟨_, hmem⟩)) (Nat.sInf_le hmem)

lemma linspace_length (L : ℝ) (n : ℕ) : (linspace L n).length = n := by
  unfold linspace
  split_ifs with h
  · simp [h]
  · simp

lemma npInterp_head (x0 : ℝ) (xt : List ℝ) (f0 : ℝ) (ft : List ℝ) (x : ℝ)
    (h : x ≤ x0) : npInterp x (x0 :: xt) (f0 :: ft) = f0 := by
  simp [npInterp, h]

lemma npInterp_last (x0 : ℝ) (xt : List ℝ) (f0 : ℝ) (ft : List ℝ) (x : ℝ)
    (h0 : ¬ x ≤ x0) (h : (x0 :: xt).getLastD 0 ≤ x) :
    npInterp x (x0 :: xt) (f0 :: ft) = (f0 :: ft).getLastD 0 := by
  simp only [npInterp, if_neg h0, if_pos h]

lemma cumdist_head_shape (stroke : List Pt) :
    ∃ t, cumdist stroke = (0 : ℝ) :: t := by
  unfold cumdist
  cases segment_lengths stroke with
  | nil => exact ⟨[], rfl⟩
  | cons a l => exact ⟨List.scanl (· + ·) (0 + a) l, rfl⟩

lemma getLastD_map_fst (S : List Pt) (p : Pt) (hS : S ≠ []) :
    (S.map Prod.fst).getLastD 0 = (S.getLastD p).1 := by
  induction S with
  | nil => exact absurd rfl hS
  | cons a t ih =>
      cases t with
      | nil => rfl
      | cons b u => simpa using ih (by simp)

lemma getLastD_map_snd (S : List Pt) (p : Pt) (hS : S ≠ []) :
    (S.map Prod.snd).getLastD 0 = (S.getLastD p).2 := by
  induction S with
  | nil => exact absurd rfl hS
  | cons a t ih =>
      cases t with
      | nil => rfl
      | cons b u => simpa using ih (by simp)

lemma linspace_ne_nil (L : ℝ) (n : ℕ) (hn : 0 < n) : linspace L n ≠ [] := by
  intro h
  have hl := linspace_length L n
  rw [h] at hl
  simp at hl
  omega

lemma linspace_headD (L : ℝ) (n : ℕ) (hn : 2 ≤ n) : (linspace L n).headD 0 = 0 := by
  unfold linspace
  rw [if_neg (by omega)]
  obtain ⟨m, rfl⟩ : ∃ m, n = m + 2 := ⟨n - 2, by omega⟩
  rw [show m + 2 = (m + 1) + 1 from rfl, List.range_succ_eq_map]
  simp

lemma linspace_getLastD (L : ℝ) (n : ℕ) (hn : 2 ≤ n) :
    (linspace L n).getLastD 0 = L := by
  unfold linspace
  rw [if_neg (by omega)]
  obtain ⟨m, rfl⟩ : ∃ m, n = m + 2 := ⟨n - 2, by omega⟩
  rw [show m + 2 = (m + 1) + 1 from rfl, List.range_succ, List.map_append]
  simp only [List.map_cons, List.map_nil, List.getLastD_concat]
  have hm1 : ((m : ℝ) + 1) ≠ 0 := by positivity
  push_cast
  field_simp

lemma headD_map_g (g : ℝ → Pt) (l : List ℝ) (hl : l ≠ []) :
    (l.map g).headD pt0 = g (l.headD 0) := by
  cases l with
  | nil => exact absurd rfl hl
  | cons a t => rfl

lemma getLastD_map_g (g : ℝ → Pt) (l : List ℝ) (hl : l ≠ []) :
    (l.map g).getLastD pt0 = g (l.getLastD 0) := by
  induction l with
  | nil => exact absurd rfl hl
  | cons a t ih =>
      cases t with
      | nil => rfl
      | cons b u => simpa using ih (by simp)

lemma segLen_horiz (a b y : ℝ) (h : a ≤ b) : segLen (a, y) (b, y) = b - a := by
  unfold segLen
  rw [show (b - a) ^ 2 + (y - y) ^ 2 = (b - a) ^ 2 by ring,
    Real.sqrt_sq (by linarith)]

lemma calculate_dtw_distance_eq (A B : List Pt) (hA : A ≠ []) (hB : B ≠ []) :
    calculate_dtw_distance A B = some (dtwNormalized A B) := by
  simp [calculate_dtw_distance, hA, hB]

/-! ## Claim theorems -/

/-- C3: `validate_stroke_order` is a gating function: an empty user-stroke
list yields `is_valid = false` with score 0 (and order penalty 1); every
non-empty user-stroke list whose length differs from the template's yields
`is_valid = false`, score exactly 0.3, `stroke_count_match = false`, order
penalty 0.5, independently of the stroke contents (no alignment is
computed: the result is a fixed constant). -/
theorem validate_stroke_order_gating :
    (∀ ts : List (List Pt), validate_stroke_order ts [] =
      { is_valid := false, score := 0, stroke_count_match := false
        order_penalty := 1, direction_match_rate := 0 }) ∧
    (∀ ts us : List (List Pt), us ≠ [] → us.length ≠ ts.length →
      validate_stroke_order ts us =
      { is_valid := false, score := 0.3, stroke_count_match := false
        order_penalty := 0.5, direction_match_rate := 0 }) :=
  ⟨validate_stroke_order_empty, validate_stroke_order_mismatch⟩

/-- Witness for C3: two template strokes against one user stroke. -/
theorem validate_stroke_order_gating_witness :
    ([[((0 : ℝ), (0 : ℝ)), (1, 1)]] : List (List Pt)) ≠ [] ∧
    ([[((0 : ℝ), (0 : ℝ)), (1, 1)]] : List (List Pt)).length ≠
      ([[((0 : ℝ), (0 : ℝ)), (1, 0)], [(0, 0), (0, 1)]] : List (List Pt)).length ∧
    validate_stroke_order [[((0 : ℝ), (0 : ℝ)), (1, 0)], [(0, 0), (0, 1)]]
      [[((0 : ℝ), (0 : ℝ)), (1, 1)]] =
      { is_valid := false, score := 0.3, stroke_count_match := false
        order_penalty := 0.5, direction_match_rate := 0 } :=
  ⟨by simp, by simp,
    validate_stroke_order_gating.2 _ _ (by simp) (by simp)⟩

/-- C9: the time-warped alignment distance is identity-respecting and
symmetric: `align(S, S) = 0` for non-empty `S`; `align(A, B) = align(B, A)`
for non-empty `A`, `B`; and every pairwise distance matrix is symmetric
with zero diagonal. -/
theorem dtw_identity_and_symmetry :
    (∀ S : List Pt, S ≠ [] → calculate_dtw_distance S S = some 0) ∧
    (∀ A B : List Pt, A ≠ [] → B ≠ [] →
      calculate_dtw_distance A B = calculate_dtw_distance B A) ∧
    (∀ strokes : List (List Pt), ∀ i j : ℕ,
      dtw_matrix_entry strokes i j = dtw_matrix_entry strokes j i ∧
      dtw_matrix_entry strokes i i = some 0) := by
  refine ⟨fun S hS => ?_, fun A B _ _ => calculate_dtw_distance_comm A B,
    fun strokes i j => ⟨?_, by simp [dtw_matrix_entry]⟩⟩
  · simp [calculate_dtw_distance, hS, dtwNormalized_self]
  · rcases lt_trichotomy i j with h | rfl | h
    · rw [dtw_matrix_entry, dtw_matrix_entry, if_neg h.ne, if_pos h,
        if_neg h.ne', if_neg (lt_asymm h)]
    · rfl
    · rw [dtw_matrix_entry, dtw_matrix_entry, if_neg h.ne', if_neg (lt_asymm h),
        if_neg h.ne, if_pos h]

/-- Witness for C9: identity and symmetry at concrete strokes. -/
theorem dtw_identity_and_symmetry_witness :
    calculate_dtw_distance [((0 : ℝ), (0 : ℝ)), (1, 1)]
      [((0 : ℝ), (0 : ℝ)), (1, 1)] = some 0 ∧
    calculate_dtw_distance [((0 : ℝ), (0 : ℝ))] [((1 : ℝ), (0 : ℝ)), (2, 0)] =
      calculate_dtw_distance [((1 : ℝ), (0 : ℝ)), (2, 0)] [((0 : ℝ), (0 : ℝ))] :=
  ⟨dtw_identity_and_symmetry.1 _ (by simp),
   dtw_identity_and_symmetry.2.1 _ _ (by simp) (by simp)⟩

/-- C6: the posture evaluator starts at 100 and subtracts, independently
per metric, the spec's piecewise penalty (0 on the good side of warning, a
linear ramp to half the maximum strictly between warning and critical, the
full maximum at/beyond critical — maxima 30/40/30), clamped to `[0, 100]`;
the level is CRITICAL / WARNING / GOOD by threshold reach.  At
`spine_angle = 25, eye_distance = 40, head_tilt = 5` the level is CRITICAL
and the score is strictly between 0 and 100. -/
theorem posture_score_characterization :
    (∀ pd : PostureData,
      (score_posture pd).score =
        max 0 (min 100 (100 - specSpinePenalty pd.spine_angle -
          specEyePenalty pd.eye_screen_distance - specHeadPenalty pd.head_tilt)) ∧
      (score_posture pd).level =
        specPostureLevel pd.spine_angle pd.eye_screen_distance pd.head_tilt) ∧
    (score_posture ⟨25, 40, 5⟩).level = .critical ∧
    (score_posture ⟨25, 40, 5⟩).score < 100 ∧
    0 < (score_posture ⟨25, 40, 5⟩).score := by
  have hs : (score_posture ⟨25, 40, 5⟩).score = 70 := by
    norm_num [score_posture, evaluate_spine_angle, evaluate_eye_distance,
      evaluate_head_tilt, SPINE_ANGLE_WARNING, SPINE_ANGLE_CRITICAL,
      SPINE_PENALTY_MAX, EYE_DISTANCE_WARNING, EYE_DISTANCE_CRITICAL,
      EYE_DISTANCE_PENALTY_MAX, HEAD_TILT_WARNING, HEAD_TILT_CRITICAL,
      HEAD_TILT_PENALTY_MAX, min_def, max_def]
  refine ⟨fun pd => ⟨?_, ?_⟩, by decide, by rw [hs]; norm_num, by rw [hs]; norm_num⟩
  · simp only [score_posture, evaluate_spine_angle_eq_spec,
      evaluate_eye_distance_eq_spec, evaluate_head_tilt_eq_spec]
  · simp only [score_posture, determine_level_eq_spec]

/-- C10 (implicit): a posture sample with at least one metric strictly
inside its warning–critical band and no metric at/beyond critical scores
strictly below 100 at level WARNING (`is_correct = false`), yet the issues
list is empty — issues are appended only at critical reach. -/
theorem posture_warning_band_silent (pd : PostureData)
    (hband : (SPINE_ANGLE_WARNING < pd.spine_angle ∧
        pd.spine_angle < SPINE_ANGLE_CRITICAL) ∨
      (EYE_DISTANCE_CRITICAL < pd.eye_screen_distance ∧
        pd.eye_screen_distance < EYE_DISTANCE_WARNING) ∨
      (HEAD_TILT_WARNING < pd.head_tilt ∧ pd.head_tilt < HEAD_TILT_CRITICAL))
    (hcrit : pd.spine_angle < SPINE_ANGLE_CRITICAL ∧
      EYE_DISTANCE_CRITICAL < pd.eye_screen_distance ∧
      pd.head_tilt < HEAD_TILT_CRITICAL) :
    (score_posture pd).score < 100 ∧ (score_posture pd).level = .warning ∧
    (score_posture pd).is_correct = false ∧ (score_posture pd).issues = [] := by
  obtain ⟨hc1, hc2, hc3⟩ := hcrit
  have hp1 := evaluate_spine_angle_nonneg pd.spine_angle
  have hp2 := evaluate_eye_distance_nonneg pd.eye_screen_distance
  have hp3 := evaluate_head_tilt_nonneg pd.head_tilt
  have hpos : 0 < evaluate_spine_angle pd.spine_angle +
      evaluate_eye_distance pd.eye_screen_distance +
      evaluate_head_tilt pd.head_tilt := by
    rcases hband with ⟨h1, h2⟩ | ⟨h1, h2⟩ | ⟨h1, h2⟩
    · have h : 0 < evaluate_spine_angle pd.spine_angle := by
        unfold evaluate_spine_angle SPINE_ANGLE_WARNING SPINE_ANGLE_CRITICAL
          SPINE_PENALTY_MAX at *
        rw [if_neg (by linarith), if_pos (by linarith)]
        exact mul_pos (div_pos (by linarith) (by norm_num)) (by norm_num)
      linarith
    · have h : 0 < evaluate_eye_distance pd.eye_screen_distance := by
        unfold evaluate_eye_distance EYE_DISTANCE_WARNING EYE_DISTANCE_CRITICAL
          EYE_DISTANCE_PENALTY_MAX at *
        rw [if_neg (by linarith), if_pos (by linarith)]
        exact mul_pos (div_pos (by linarith) (by norm_num)) (by norm_num)
      linarith
    · have h : 0 < evaluate_head_tilt pd.head_tilt := by
        unfold evaluate_head_tilt HEAD_TILT_WARNING HEAD_TILT_CRITICAL
          HEAD_TILT_PENALTY_MAX at *
        rw [if_neg (by linarith), if_pos (by linarith)]
        exact mul_pos (div_pos (by linarith) (by norm_num)) (by norm_num)
      linarith
  have hlw : determine_level pd.spine_angle pd.eye_screen_distance
      pd.head_tilt = .warning := by
    rw [determine_level_eq_spec]
    unfold specPostureLevel
    rw [if_neg, if_pos]
    · rcases hband with ⟨h1, _⟩ | ⟨_, h2⟩ | ⟨h1, _⟩
      · exact Or.inl h1.le
      · exact Or.inr (Or.inl h2.le)
      · exact Or.inr (Or.inr h1.le)
    · rintro (h | h | h) <;> linarith
  refine ⟨?_, ?_, ?_, ?_⟩
  · have hrec : (score_posture pd).score =
        max 0 (min 100 (100 - evaluate_spine_angle pd.spine_angle -
          evaluate_eye_distance pd.eye_screen_distance -
          evaluate_head_tilt pd.head_tilt)) := by
      simp only [score_posture]
    rw [hrec]
    exact max_lt (by norm_num)
      (lt_of_le_of_lt (min_le_right _ _) (by linarith))
  · simpa only [score_posture] using hlw
  · simp only [score_posture, hlw]
    rfl
  · simp only [score_posture]
    rw [if_neg fun h => absurd h.2 (not_le.mpr hc1),
      if_neg fun h => absurd h.2 (not_le.mpr hc2),
      if_neg fun h => absurd h.2 (not_le.mpr hc3)]
    rfl

/-- Witness for C10: spine angle 12 is strictly inside its warning band,
nothing reaches critical. -/
theorem posture_warning_band_silent_witness :
    ((SPINE_ANGLE_WARNING < (12 : ℚ) ∧ (12 : ℚ) < SPINE_ANGLE_CRITICAL) ∧
      ((12 : ℚ) < SPINE_ANGLE_CRITICAL ∧ EYE_DISTANCE_CRITICAL < (50 : ℚ) ∧
        (5 : ℚ) < HEAD_TILT_CRITICAL)) ∧
    (score_posture ⟨12, 50, 5⟩).score < 100 ∧
    (score_posture ⟨12, 50, 5⟩).level = .warning ∧
    (score_posture ⟨12, 50, 5⟩).is_correct = false ∧
    (score_posture ⟨12, 50, 5⟩).issues = [] :=
  ⟨⟨⟨by decide, by decide⟩, ⟨by decide, by decide, by decide⟩⟩,
    posture_warning_band_silent ⟨12, 50, 5⟩
      (Or.inl ⟨by decide, by decide⟩) ⟨by decide, by decide, by decide⟩⟩

/-- C8: `calculate_character_score` yields an all-zero breakdown on empty
input; otherwise the total is `mean · 100`, reduced by
`(1 − actual/expected) · 50` when the count falls short, by
`(actual/expected − 1) · 25` when it exceeds, unchanged without an
expected count, and clamped to `[0, 100]`; `perfect_strokes` counts the
scores at/above 0.95. -/
theorem calculate_character_score_spec :
    (∀ e, calculate_character_score [] e =
      { total_score := 0, stroke_count := 0, expected_count := e
        average_score := 0, min_score := 0, max_score := 0
        perfect_strokes := 0 }) ∧
    (∀ xs : List ℚ, xs ≠ [] →
      ((calculate_character_score xs none).total_score =
        max 0 (min 100 (xs.sum / xs.length * 100))) ∧
      (∀ e : ℕ, 0 < e →
        (xs.length < e → (calculate_character_score xs (some e)).total_score =
          max 0 (min 100 (xs.sum / xs.length * 100 -
            (1 - (xs.length : ℚ) / e) * 50))) ∧
        (e < xs.length → (calculate_character_score xs (some e)).total_score =
          max 0 (min 100 (xs.sum / xs.length * 100 -
            ((xs.length : ℚ) / e - 1) * 25))) ∧
        (xs.length = e → (calculate_character_score xs (some e)).total_score =
          max 0 (min 100 (xs.sum / xs.length * 100)))) ∧
      (∀ e, (calculate_character_score xs e).perfect_strokes =
        (xs.filter fun s => (0.95 : ℚ) ≤ s).length)) := by
  have hepos : ∀ e : ℕ, 0 < e → (0 : ℚ) < e := fun e he => by exact_mod_cast he
  refine ⟨fun e => by simp [calculate_character_score],
    fun xs hxs => ⟨?_, fun e he => ⟨?_, ?_, ?_⟩, fun e => ?_⟩⟩
  · simp only [calculate_character_score, if_neg hxs]
  · intro hlt
    have hr : (xs.length : ℚ) / e < 1 :=
      (div_lt_one (hepos e he)).mpr (by exact_mod_cast hlt)
    simp only [calculate_character_score, if_neg hxs]
    rw [if_pos (Nat.ne_of_lt hlt), if_pos hr, clamp_max0]
  · intro hgt
    have hr : ¬ ((xs.length : ℚ) / e < 1) := by
      rw [not_lt, le_div_iff (hepos e he), one_mul]
      exact_mod_cast hgt.le
    simp only [calculate_character_score, if_neg hxs]
    rw [if_pos (Nat.ne_of_gt hgt), if_neg hr, clamp_max0]
  · intro heq
    simp only [calculate_character_score, if_neg hxs]
    rw [if_neg (not_ne_iff.mpr heq)]
  · simp only [calculate_character_score, if_neg hxs,
      List.countP_eq_length_filter]

/-- Witness for C8: two strokes against an expected count of three. -/
theorem calculate_character_score_spec_witness :
    ([(1 : ℚ), 9/10] ≠ ([] : List ℚ)) ∧ (0 : ℕ) < 3 ∧ (2 : ℕ) < 3 ∧
    (calculate_character_score [(1 : ℚ), 9/10] (some 3)).total_score = 235/3 :=
  ⟨by simp, by norm_num, by norm_num,
    (((calculate_character_score_spec.2 [(1 : ℚ), 9/10] (by simp)).2.1
      3 (by norm_num)).1 (by norm_num)).trans (by norm_num)⟩

/-- C7: in the successful path, an omitted posture sample defaults the
posture score to 100; the total is `handwriting · 0.7 + posture · 0.3`;
grades follow the fixed bands (≥90, ≥80, ≥60, else); and handwriting 90
with posture omitted totals 93.0 with grade "excellent". -/
theorem comprehensive_weighting_and_grades :
    (∀ h : ℝ, ∀ sa, (comprehensive_combine h none sa).posture_score = 100) ∧
    (∀ h : ℝ, ∀ pd sa, (comprehensive_combine h pd sa).total_score =
      round1 (h * HANDWRITING_WEIGHT + ((specPostureScore pd : ℚ) : ℝ) * POSTURE_WEIGHT)) ∧
    (∀ s : ℝ, (90 ≤ s → get_grade s = "优秀") ∧
      (80 ≤ s → s < 90 → get_grade s = "良好") ∧
      (60 ≤ s → s < 80 → get_grade s = "及格") ∧
      (s < 60 → get_grade s = "需练习")) ∧
    (comprehensive_combine 90 none []).total_score = 93 ∧
    (comprehensive_combine 90 none []).grade = "优秀" := by
  have h100 : round1 ((100 : ℚ) : ℝ) = 100 := by
    have := round1_int 100
    norm_num at this ⊢
    exact this
  refine ⟨fun h sa => ?_, fun h pd sa => ?_, fun s => ?_, ?_, ?_⟩
  · simp only [comprehensive_combine, Option.map_none']
    simpa using h100
  · cases pd with
    | none => simp only [comprehensive_combine, Option.map_none', specPostureScore]; norm_num
    | some pd => simp only [comprehensive_combine, Option.map_some', specPostureScore]
  · refine ⟨fun h90 => ?_, fun h80 h90 => ?_, fun h60 h80 => ?_, fun h60 => ?_⟩ <;>
      unfold get_grade
    · rw [if_pos h90]
    · rw [if_neg (not_le.mpr h90), if_pos h80]
    · rw [if_neg (not_le.mpr h80), if_neg (by linarith), if_pos h60]
    · rw [if_neg (by linarith), if_neg (by linarith), if_neg (not_le.mpr h60)]
  · simp only [comprehensive_combine, Option.map_none']
    rw [show (90 : ℝ) * HANDWRITING_WEIGHT + 100 * POSTURE_WEIGHT = ((93 : ℤ) : ℝ) by
      unfold HANDWRITING_WEIGHT POSTURE_WEIGHT; norm_num]
    rw [round1_int]
    norm_num
  · simp only [comprehensive_combine, Option.map_none']
    rw [show (90 : ℝ) * HANDWRITING_WEIGHT + 100 * POSTURE_WEIGHT = (93 : ℝ) by
      unfold HANDWRITING_WEIGHT POSTURE_WEIGHT; norm_num]
    unfold get_grade
    rw [if_pos (by norm_num)]

/-- Witness for C7: the grade bands at concrete scores and the scenario. -/
theorem comprehensive_weighting_and_grades_witness :
    ((80 : ℝ) ≤ 85 ∧ (85 : ℝ) < 90 ∧ get_grade 85 = "良好") ∧
    ((60 : ℝ) ≤ 61 ∧ (61 : ℝ) < 80 ∧ get_grade 61 = "及格") ∧
    ((10 : ℝ) < 60 ∧ get_grade 10 = "需练习") ∧
    (comprehensive_combine 90 none []).total_score = 93 :=
  ⟨⟨by norm_num, by norm_num,
      (comprehensive_weighting_and_grades.2.2.1 85).2.1 (by norm_num) (by norm_num)⟩,
    ⟨by norm_num, by norm_num,
      (comprehensive_weighting_and_grades.2.2.1 61).2.2.1 (by norm_num) (by norm_num)⟩,
    ⟨by norm_num,
      (comprehensive_weighting_and_grades.2.2.1 10).2.2.2 (by norm_num)⟩,
    comprehensive_weighting_and_grades.2.2.2.1⟩

/-- C1 (code bug): on a stroke-count mismatch the endpoint does not return
the zero-score "stroke order error" response: the short-circuit branch
reads `order_result.error_type`, a field `StrokeOrderResult` never
declares, so the endpoint raises (HTTP 500).  Evaluated here at the
failing input of the repository's own `test_main.py` mismatch test
(character 永, a 2-stroke reference, 1 user stroke). -/
theorem comprehensive_score_mismatch_raises :
    comprehensive_score "永" [[((0.1 : ℝ), 0.1), (0.2, 0.2)]] none
      [[((0.1 : ℝ), 0.1), (0.2, 0.2)], [(0.3, 0.3), (0.4, 0.4)]] =
    .error (.internalError
      "AttributeError: 'StrokeOrderResult' object has no attribute 'error_type'") := by
  unfold comprehensive_score
  rw [if_neg (by decide), if_neg (by simp),
    validate_stroke_order_mismatch _ _ (by simp) (by simp)]
  simp

/-- C4: on matching non-empty stroke lists, `validate_stroke_order`
computes exactly the specification's formulas: order penalty as the sum of
`0.3/N` over template indices whose (least) best-matching user index is not
the identity, diagonal-mean similarity halved below 0.6, score
`avg · (1 − penalty)` boosted by `0.1 · dmr` (capped at 1) when
`dmr > 0.5`, and validity iff `score ≥ 0.7` and `penalty < 0.3`. -/
theorem validate_stroke_order_matching_spec (ts us : List (List Pt))
    (hts : ts ≠ []) (hlen : us.length = ts.length) :
    validate_stroke_order ts us = spec_order_verdict ts us := by
  have hn : 0 < ts.length := List.length_pos.mpr hts
  have hus : us ≠ [] := by
    intro h
    rw [h] at hlen
    simp only [List.length_nil] at hlen
    omega
  unfold validate_stroke_order spec_order_verdict
  rw [if_neg hus, if_neg (not_ne_iff.mpr hlen)]
  simp only []
  rw [foldl_cond_add, zero_add, map_range_sum, if_pos hn, foldl_cond_count,
    Nat.zero_add]
  have hb : ∀ i : ℕ,
      (if npArgmax (similarity_matrix ts us i) ts.length ≠ i
        then (0.3 : ℝ) / ts.length else 0) =
      (if bestMatch (similarity_matrix ts us i) ts.length ≠ i
        then (0.3 : ℝ) / ts.length else 0) := fun i => by
    rw [npArgmax_eq_bestMatch _ _ hn]
  rw [Finset.sum_congr rfl fun i _ => hb i]

/-- Witness for C4: a template matched against itself. -/
theorem validate_stroke_order_matching_spec_witness :
    ([[((0 : ℝ), (0 : ℝ)), (1, 0)]] : List (List Pt)) ≠ [] ∧
    validate_stroke_order [[((0 : ℝ), (0 : ℝ)), (1, 0)]]
        [[((0 : ℝ), (0 : ℝ)), (1, 0)]] =
      spec_order_verdict [[((0 : ℝ), (0 : ℝ)), (1, 0)]]
        [[((0 : ℝ), (0 : ℝ)), (1, 0)]] :=
  ⟨by simp, validate_stroke_order_matching_spec _ _ (by simp) rfl⟩

/-- C5 counterexample: at target count 1 on the non-degenerate two-point
stroke `[(0,0),(1,1)]`, the single output point is the stroke's FIRST
point (np.linspace(0, L, 1) = [0]), so the last output point does not
equal the stroke's last point within 1e-9 — the claim's endpoint clause
fails for n = 1. -/
theorem resample_stroke_single_target_counterexample :
    resample_stroke [((0 : ℝ), (0 : ℝ)), (1, 1)] 1 = [((0 : ℝ), (0 : ℝ))] ∧
    ¬ (|((resample_stroke [((0 : ℝ), (0 : ℝ)), (1, 1)] 1).getLastD pt0).1 - 1| ≤ 1e-9 ∧
       |((resample_stroke [((0 : ℝ), (0 : ℝ)), (1, 1)] 1).getLastD pt0).2 - 1| ≤ 1e-9) := by
  have hL : total_length [((0 : ℝ), (0 : ℝ)), (1, 1)] = Real.sqrt 2 := by
    unfold total_length cumdist segment_lengths segLen
    norm_num
  have hs2 : (1 : ℝ) ≤ Real.sqrt 2 := by
    rw [show (1 : ℝ) = Real.sqrt 1 from Real.sqrt_one.symm]
    exact Real.sqrt_le_sqrt (by norm_num)
  have hmain : resample_stroke [((0 : ℝ), (0 : ℝ)), (1, 1)] 1 = [((0 : ℝ), (0 : ℝ))] := by
    unfold resample_stroke
    rw [if_neg (by simp), if_neg (by simp),
      if_neg (by rw [hL]; exact not_lt.mpr (le_trans (by norm_num) hs2))]
    unfold linspace
    rw [if_pos rfl]
    simp only [List.map_cons, List.map_nil]
    unfold cumdist segment_lengths
    simp only [List.zip_cons_cons, List.zip_nil_right, List.map_cons,
      List.map_nil, List.scanl]
    rw [npInterp_head _ _ _ _ 0 le_rfl]
  refine ⟨hmain, ?_⟩
  rw [hmain]
  intro h
  have h1 := h.1
  norm_num [List.getLastD] at h1

/-- C5 (amended): `resample` returns exactly `n` points for non-empty
input and `[]` for empty input; a single point and a degenerate stroke
(arclength below 1e-10) are duplicated `n` times; and whenever
`|S| ≥ 2`, `S` is non-degenerate AND the target count is at least 2, the
first and last output points equal the original endpoints (exactly, hence
within 1e-9).  The endpoint clause fails for n = 1, where the only output
is the first point. -/
theorem resample_stroke_spec :
    (∀ n, resample_stroke [] n = []) ∧
    (∀ S : List Pt, ∀ n, S ≠ [] → (resample_stroke S n).length = n) ∧
    (∀ p : Pt, ∀ n, resample_stroke [p] n = List.replicate n p) ∧
    (∀ S : List Pt, ∀ n, 2 ≤ S.length → total_length S < 1e-10 →
      resample_stroke S n = List.replicate n (S.headD pt0)) ∧
    (∀ S : List Pt, ∀ n, 2 ≤ S.length → ¬ total_length S < 1e-10 → 2 ≤ n →
      (resample_stroke S n).headD pt0 = S.headD pt0 ∧
      (resample_stroke S n).getLastD pt0 = S.getLastD pt0) := by
  refine ⟨fun n => by simp [resample_stroke], ?_, ?_, ?_, ?_⟩
  · intro S n hS
    unfold resample_stroke
    rw [if_neg hS]
    split_ifs
    · simp
    · simp
    · rw [List.length_map, linspace_length]
  · intro p n
    simp [resample_stroke]
  · intro S n h2 hdeg
    unfold resample_stroke
    rw [if_neg (by intro h; rw [h] at h2; simp at h2),
      if_neg (by intro h; omega), if_pos hdeg]
  · intro S n h2 hnd hn
    have hSne : S ≠ [] := by intro h; rw [h] at h2; simp at h2
    have hL : (0 : ℝ) < total_length S :=
      lt_of_lt_of_le (by norm_num) (not_lt.mp hnd)
    obtain ⟨p, S', rfl⟩ : ∃ p S', S = p :: S' := by
      cases S with
      | nil => exact absurd rfl hSne
      | cons a t => exact ⟨a, t, rfl⟩
    obtain ⟨t, ht⟩ := cumdist_head_shape (p :: S')
    have hlastknot : ((0 : ℝ) :: t).getLastD 0 = total_length (p :: S') := by
      rw [← ht]; rfl
    unfold resample_stroke
    rw [if_neg hSne, if_neg (by intro h; omega), if_neg hnd]
    constructor
    · rw [headD_map_g _ _ (linspace_ne_nil _ _ (by omega)),
        linspace_headD _ _ hn, ht]
      simp only [List.map_cons]
      rw [npInterp_head _ _ _ _ 0 le_rfl, npInterp_head _ _ _ _ 0 le_rfl]
      rfl
    · rw [getLastD_map_g _ _ (linspace_ne_nil _ _ (by omega)),
        linspace_getLastD _ _ hn, ht]
      simp only [List.map_cons]
      rw [npInterp_last _ _ _ _ _ (not_le.mpr hL) (le_of_eq hlastknot),
        npInterp_last _ _ _ _ _ (not_le.mpr hL) (le_of_eq hlastknot)]
      rw [show p.1 :: S'.map Prod.fst = (p :: S').map Prod.fst from rfl,
        show p.2 :: S'.map Prod.snd = (p :: S').map Prod.snd from rfl,
        getLastD_map_fst _ pt0 (by simp), getLastD_map_snd _ pt0 (by simp)]

/-- Witness for C5 (amended): the stroke `[(0,0),(1,1)]` resampled to five
points keeps both endpoints; the degenerate stroke `[(0,0),(0,0)]`
resampled to three points duplicates its first point. -/
theorem resample_stroke_spec_witness :
    (2 ≤ ([((0 : ℝ), (0 : ℝ)), (1, 1)] : List Pt).length ∧
      (resample_stroke [((0 : ℝ), (0 : ℝ)), (1, 1)] 5).length = 5 ∧
      (resample_stroke [((0 : ℝ), (0 : ℝ)), (1, 1)] 5).headD pt0 = ((0 : ℝ), (0 : ℝ)) ∧
      (resample_stroke [((0 : ℝ), (0 : ℝ)), (1, 1)] 5).getLastD pt0 = ((1 : ℝ), (1 : ℝ))) ∧
    total_length [((0 : ℝ), (0 : ℝ)), ((0 : ℝ), (0 : ℝ))] < 1e-10 ∧
    resample_stroke [((0 : ℝ), (0 : ℝ)), ((0 : ℝ), (0 : ℝ))] 3 =
      List.replicate 3 ((0 : ℝ), (0 : ℝ)) := by
  have hnd : ¬ total_length [((0 : ℝ), (0 : ℝ)), (1, 1)] < 1e-10 := by
    have hL : total_length [((0 : ℝ), (0 : ℝ)), (1, 1)] = Real.sqrt 2 := by
      unfold total_length cumdist segment_lengths segLen
      norm_num
    have hs2 : (1 : ℝ) ≤ Real.sqrt 2 := by
      rw [show (1 : ℝ) = Real.sqrt 1 from Real.sqrt_one.symm]
      exact Real.sqrt_le_sqrt (by norm_num)
    rw [hL]
    exact not_lt.mpr (le_trans (by norm_num : (1e-10 : ℝ) ≤ 1) hs2)
  have hdeg : total_length [((0 : ℝ), (0 : ℝ)), ((0 : ℝ), (0 : ℝ))] < 1e-10 := by
    unfold total_length cumdist segment_lengths segLen
    norm_num
  obtain ⟨hh, hl⟩ := resample_stroke_spec.2.2.2.2
    [((0 : ℝ), (0 : ℝ)), (1, 1)] 5 (by simp) hnd (by norm_num)
  exact ⟨⟨by simp, resample_stroke_spec.2.1 _ 5 (by simp), hh, hl⟩, hdeg,
    resample_stroke_spec.2.2.2.1 _ 3 (by simp) hdeg⟩

/-- C2 counterexample: the user stroke `[(0,0),(0.5,0),(1,0)]` traces
exactly the template segment `[(0,0),(1,0)]`, so after resampling both to
a common point count (5 here — the same holds for any count, as both
strokes resample to the same arclength-uniform sequence) the claimed
resample-first pipeline yields DTW distance 0 and similarity 1; but
`_score_handwriting` runs DTW on the raw strokes, whose extra interior
point costs a positive normalized distance, so the code's similarity is
strictly below 1.  Hence the claimed "first resampling both strokes" step
does not describe the code. -/
theorem score_handwriting_no_resampling_counterexample :
    resample_stroke [((0 : ℝ), (0 : ℝ)), (0.5, 0), (1, 0)] 5 =
      resample_stroke [((0 : ℝ), (0 : ℝ)), (1, 0)] 5 ∧
    resampleFirstSimilarity 5 [((0 : ℝ), (0 : ℝ)), (0.5, 0), (1, 0)]
      [((0 : ℝ), (0 : ℝ)), (1, 0)] = 1 ∧
    (score_one_stroke 0 [((0 : ℝ), (0 : ℝ)), (0.5, 0), (1, 0)]
      [[((0 : ℝ), (0 : ℝ)), (1, 0)]]).2 < 1 ∧
    (score_one_stroke 0 [((0 : ℝ), (0 : ℝ)), (0.5, 0), (1, 0)]
      [[((0 : ℝ), (0 : ℝ)), (1, 0)]]).2 ≠
      resampleFirstSimilarity 5 [((0 : ℝ), (0 : ℝ)), (0.5, 0), (1, 0)]
        [((0 : ℝ), (0 : ℝ)), (1, 0)] := by
  have hT5 : resample_stroke [((0 : ℝ), (0 : ℝ)), (1, 0)] 5 =
      [((0 : ℝ), (0 : ℝ)), (1/4, 0), (1/2, 0), (3/4, 0), (1, 0)] := by
    have hseg : segment_lengths [((0 : ℝ), (0 : ℝ)), (1, 0)] = [1] := by
      unfold segment_lengths
      simp only [List.tail_cons, List.zip_cons_cons, List.zip_nil_right,
        List.map_cons, List.map_nil]
      rw [segLen_horiz 0 1 0 (by norm_num)]
      norm_num
    have hcum : cumdist [((0 : ℝ), (0 : ℝ)), (1, 0)] = [0, 1] := by
      unfold cumdist
      rw [hseg]
      norm_num [List.scanl]
    have hL : total_length [((0 : ℝ), (0 : ℝ)), (1, 0)] = 1 := by
      unfold total_length
      rw [hcum]
      rfl
    have hlin : linspace (1 : ℝ) 5 = [0, 1/4, 1/2, 3/4, 1] := by
      unfold linspace
      rw [if_neg (by norm_num), show List.range 5 = [0, 1, 2, 3, 4] from rfl]
      norm_num
    unfold resample_stroke
    rw [if_neg (by simp), if_neg (by simp), if_neg (by rw [hL]; norm_num),
      hL, hlin, hcum]
    simp only [List.map_cons, List.map_nil]
    norm_num [npInterp, interpSegs, List.getLastD]
  have hB5 : resample_stroke [((0 : ℝ), (0 : ℝ)), (0.5, 0), (1, 0)] 5 =
      [((0 : ℝ), (0 : ℝ)), (1/4, 0), (1/2, 0), (3/4, 0), (1, 0)] := by
    have hseg : segment_lengths [((0 : ℝ), (0 : ℝ)), (0.5, 0), (1, 0)] =
        [1/2, 1/2] := by
      unfold segment_lengths
      simp only [List.tail_cons, List.zip_cons_cons, List.zip_nil_right,
        List.map_cons, List.map_nil]
      rw [segLen_horiz 0 0.5 0 (by norm_num), segLen_horiz 0.5 1 0 (by norm_num)]
      norm_num
    have hcum : cumdist [((0 : ℝ), (0 : ℝ)), (0.5, 0), (1, 0)] = [0, 1/2, 1] := by
      unfold cumdist
      rw [hseg]
      norm_num [List.scanl]
    have hL : total_length [((0 : ℝ), (0 : ℝ)), (0.5, 0), (1, 0)] = 1 := by
      unfold total_length
      rw [hcum]
      rfl
    have hlin : linspace (1 : ℝ) 5 = [0, 1/4, 1/2, 3/4, 1] := by
      unfold linspace
      rw [if_neg (by norm_num), show List.range 5 = [0, 1, 2, 3, 4] from rfl]
      norm_num
    unfold resample_stroke
    rw [if_neg (by simp), if_neg (by simp), if_neg (by rw [hL]; norm_num),
      hL, hlin, hcum]
    simp only [List.map_cons, List.map_nil]
    norm_num [npInterp, interpSegs, List.getLastD]
  have hRT : resample_stroke [((0 : ℝ), (0 : ℝ)), (0.5, 0), (1, 0)] 5 =
      resample_stroke [((0 : ℝ), (0 : ℝ)), (1, 0)] 5 := by rw [hT5, hB5]
  have hdtwBT : dtwNormalized [((0 : ℝ), (0 : ℝ)), (0.5, 0), (1, 0)]
      [((0 : ℝ), (0 : ℝ)), (1, 0)] = 1/10 := by
    unfold dtwNormalized
    norm_num [dtwG, dcost, cityblock, nth, pt0, min_def, abs_of_nonneg,
      abs_of_nonpos]
  have hsimspec : resampleFirstSimilarity 5 [((0 : ℝ), (0 : ℝ)), (0.5, 0), (1, 0)]
      [((0 : ℝ), (0 : ℝ)), (1, 0)] = 1 := by
    unfold resampleFirstSimilarity
    rw [hRT]
    rw [calculate_dtw_distance_eq _ _ (by rw [hT5]; simp) (by rw [hT5]; simp),
      dtwNormalized_self]
    unfold normalize_score
    norm_num
  have hcode : (score_one_stroke 0 [((0 : ℝ), (0 : ℝ)), (0.5, 0), (1, 0)]
      [[((0 : ℝ), (0 : ℝ)), (1, 0)]]).2 < 1 := by
    have hd : calculate_dtw_distance [((0 : ℝ), (0 : ℝ)), (0.5, 0), (1, 0)]
        [((0 : ℝ), (0 : ℝ)), (1, 0)] = some (1/10) := by
      rw [calculate_dtw_distance_eq _ _ (by simp) (by simp), hdtwBT]
    unfold score_one_stroke
    rw [if_pos (by norm_num)]
    simp only [List.getD_cons_zero]
    rw [hd]
    simp only []
    unfold normalize_score
    have hexp : Real.exp (-(max 0 (1/10 : ℝ)) / 0.5) < 1 := by
      rw [Real.exp_lt_one_iff]
      norm_num
    have hexp0 : 0 < Real.exp (-(max 0 (1/10 : ℝ)) / 0.5) := Real.exp_pos _
    rw [min_eq_right (by nlinarith), max_eq_right (by nlinarith)]
    nlinarith
  refine ⟨hRT, hsimspec, hcode, ?_⟩
  rw [hsimspec]
  exact ne_of_lt hcode

/-- C2 (amended): in the non-short-circuit path, each user/template stroke
pair is scored by computing the DTW distance directly on the RAW strokes
(no resampling) and normalizing it with the exponential decay at reference
distance 0.5; the per-stroke analysis carries that similarity and score,
and its issues list is non-empty exactly when the stroke's score is below
60. -/
theorem score_handwriting_direct_dtw :
    (∀ (i : ℕ) (u : List Pt) (medians : List (List Pt)),
      i < medians.length → u ≠ [] → medians.getD i [] ≠ [] →
      score_one_stroke i u medians =
        (⟨i, round3 (normalize_score (dtwNormalized u (medians.getD i [])) 0.5 / 100),
          round1 (normalize_score (dtwNormalized u (medians.getD i [])) 0.5 / 100 * 100),
          if normalize_score (dtwNormalized u (medians.getD i [])) 0.5 / 100 * 100 < 60
          then [strokeIssueMsg i] else []⟩,
         normalize_score (dtwNormalized u (medians.getD i [])) 0.5 / 100)) ∧
    (∀ (i : ℕ) (u : List Pt) (medians : List (List Pt)),
      (score_one_stroke i u medians).1.issues ≠ [] ↔
        (score_one_stroke i u medians).2 * 100 < 60) := by
  constructor
  · intro i u medians hi hu ht
    unfold score_one_stroke
    rw [if_pos hi, calculate_dtw_distance_eq _ _ hu ht]
  · intro i u medians
    by_cases hi : i < medians.length
    · rcases hmatch : calculate_dtw_distance u (medians.getD i []) with _ | d
      · simp only [score_one_stroke, if_pos hi, hmatch]
        norm_num
      · simp only [score_one_stroke, if_pos hi, hmatch]
        rw [div_mul_cancel₀ (normalize_score d 0.5) (by norm_num : (100 : ℝ) ≠ 0)]
        by_cases hsc : normalize_score d 0.5 < 60
        · simp [hsc]
        · simp [hsc]
    · simp only [score_one_stroke, if_neg hi]
      norm_num

/-- Witness for C2 (amended): the template stroke scored against itself. -/
theorem score_handwriting_direct_dtw_witness :
    (0 < ([[((0 : ℝ), (0 : ℝ)), (1, 0)]] : List (List Pt)).length) ∧
    score_one_stroke 0 [((0 : ℝ), (0 : ℝ)), (1, 0)] [[((0 : ℝ), (0 : ℝ)), (1, 0)]] =
      (⟨0, round3 (normalize_score (dtwNormalized [((0 : ℝ), (0 : ℝ)), (1, 0)]
          [((0 : ℝ), (0 : ℝ)), (1, 0)]) 0.5 / 100),
        round1 (normalize_score (dtwNormalized [((0 : ℝ), (0 : ℝ)), (1, 0)]
          [((0 : ℝ), (0 : ℝ)), (1, 0)]) 0.5 / 100 * 100),
        if normalize_score (dtwNormalized [((0 : ℝ), (0 : ℝ)), (1, 0)]
            [((0 : ℝ), (0 : ℝ)), (1, 0)]) 0.5 / 100 * 100 < 60
        then [strokeIssueMsg 0] else []⟩,
       normalize_score (dtwNormalized [((0 : ℝ), (0 : ℝ)), (1, 0)]
         [((0 : ℝ), (0 : ℝ)), (1, 0)]) 0.5 / 100) :=
  ⟨by simp,
    score_handwriting_direct_dtw.1 0 _ _ (by simp) (by simp) (by simp)⟩

end SmartPen
